import Mathlib

/-!
Verification of the BTF_helper repository against its specification.

The repository has three source files:
* `src/btf_helper/btfnpz.py`   — packed reader `Btfnpz` (float signature),
* `src/btfnpz-helper/btfnpz.py` — packed reader `Btfnpz` (int signature, near duplicate),
* `src/btf_helper/btfzip.py`   — filename reader `Btfzip`.

The shallow embedding below models angles as rationals (`ℚ`): Python's
`Decimal` constructor from a numeric string is exact decimal arithmetic, and
`float` inputs denote the exact rational value of the IEEE double, so every
quantity the code manipulates is a rational number.  Error objects are
modelled by the inductive `PyError`; a Python method that can raise returns
`Except PyError _`.  The external archive and the external image decoders are
modelled as explicit data/function parameters, mirroring §6 of the spec
(external collaborators).
-/

namespace BTF

/-- Python exception kinds that the modelled code can raise.
`invalidOperation` stands for `decimal.InvalidOperation`, which derives from
`ArithmeticError`, not from `ValueError`. -/
inductive PyError where
  | valueError (msg : String)
  | typeError (msg : String)
  | indexError
  | invalidOperation
deriving DecidableEq

instance {ε α : Type} [DecidableEq ε] [DecidableEq α] : DecidableEq (Except ε α) :=
  fun a b =>
    match a, b with
    | .ok x, .ok y => decidable_of_iff (x = y) (by simp)
    | .error x, .error y => decidable_of_iff (x = y) (by simp)
    | .ok _, .error _ => isFalse (by simp)
    | .error _, .ok _ => isFalse (by simp)

/-- A single-quote character as a string (used in the Python error messages). -/
def sq : String := String.singleton (Char.ofNat 39)

/-! ### Decimal quantization (btfzip.py)

`DECIMAL_PRECISION = Decimal("1E-3")`; `Decimal.quantize` uses the default
context rounding `ROUND_HALF_EVEN`.  A quantized 3-decimal value is
represented by its integer number of milli-degrees. -/

/-- Absolute value on `ℤ` as a plain conditional (equals `|x|`,
see `intAbs_eq_abs`).  All executable definitions below work on the
numerator/denominator of rationals with integer arithmetic: the rational
field operations themselves do not evaluate by kernel reduction. -/
def intAbs (x : ℤ) : ℤ := if x < 0 then -x else x

/-- Round the fraction `n / d` (with `d > 0`) to the nearest integer, ties
to even: the floor is `n.fdiv d` and the fractional remainder `m / d` is
compared against `1 / 2` by comparing `2 * m` against `d`. -/
def quantAux (n d : ℤ) : ℤ :=
  if 2 * (n - Int.fdiv n d * d) < d then Int.fdiv n d
  else if d < 2 * (n - Int.fdiv n d * d) then Int.fdiv n d + 1
  else if Int.fdiv n d % 2 = 0 then Int.fdiv n d
  else Int.fdiv n d + 1

/-- `Decimal(x).quantize(Decimal("1E-3"))` as milli-degrees: round
`1000 * x` to the nearest integer, ties to even (`decimal.ROUND_HALF_EVEN`,
the default context rounding), computed on the numerator and denominator.
(Values are assumed within the decimal context's 28-digit precision, as all
angles in degrees are.) -/
def quantizeMilli (x : ℚ) : ℤ := quantAux (1000 * x.num) (x.den : ℤ)

/-- A quantized angle key: four 3-decimal values in milli-degrees. -/
abbrev Key4 := ℤ × ℤ × ℤ × ℤ

/-- The quantized lookup key built by `_angles_to_image_cv2` /
`_angles_to_image_simplejpeg` lines 106-111 / 131-136. -/
def quantKey4 (tl pl tv pv : ℚ) : Key4 :=
  (quantizeMilli tl, quantizeMilli pl, quantizeMilli tv, quantizeMilli pv)

/-- The rational value denoted by a milli-degree key component. -/
def milli (k : ℤ) : ℚ := (k : ℚ) / 1000

/-! ### Parsing a `Decimal` from a string

`Decimal(str)` accepts `[sign] (digits [. digits] | . digits) [E [sign] digits]`
with surrounding whitespace; on any other input it raises
`decimal.InvalidOperation`.  (The special values `NaN`/`Infinity` are not
modelled: they would be rejected one step later by `quantize`, which raises
`InvalidOperation` on them, so the observable error is the same.) -/

/-- Value of a digit string, most significant first. -/
def digitsToNat (l : List Char) : ℕ :=
  l.foldl (fun acc c => 10 * acc + (c.toNat - 48)) 0

/-- All characters are ASCII digits. -/
def allDigits (l : List Char) : Bool := l.all (fun c => c.isDigit)

/-- Split at the first character satisfying `p`: returns the part before it
and, when found, the part after it. -/
def splitAtChar (p : Char → Bool) : List Char → List Char × Option (List Char)
  | [] => ([], none)
  | c :: rest =>
    if p c then ([], some rest)
    else
      let res := splitAtChar p rest
      (c :: res.1, res.2)

/-- Optional leading sign; returns (isNegative, rest). -/
def parseSign : List Char → Bool × List Char
  | '-' :: rest => (true, rest)
  | '+' :: rest => (false, rest)
  | l => (false, l)

/-- Digits-only nonempty string as a natural number. -/
def parseUnsignedInt (l : List Char) : Option ℕ :=
  if l ≠ [] ∧ allDigits l then some (digitsToNat l) else none

/-- The value `± M / 10^s * 10^e` of a parsed decimal literal with mantissa
digits worth `M`, `s` fractional digits and exponent `e`, built with
`Rat.divInt` over integer powers of ten (so that it evaluates by kernel
reduction). -/
def decValue (neg : Bool) (M : ℕ) (s : ℕ) (e : ℤ) : ℚ :=
  let t : ℤ := e - (s : ℤ)
  let n : ℤ := if neg then -(M : ℤ) else (M : ℤ)
  if 0 ≤ t then Rat.divInt (n * ((10 ^ t.toNat : ℕ) : ℤ)) 1
  else Rat.divInt n ((10 ^ (-t).toNat : ℕ) : ℤ)

/-- Strip leading and trailing whitespace (Python's `Decimal(str)` allows
surrounding whitespace). -/
def trimWs (l : List Char) : List Char :=
  ((l.dropWhile Char.isWhitespace).reverse.dropWhile Char.isWhitespace).reverse

/-- `Decimal(s)`: `some` exact rational value, or `none` when Python raises
`decimal.InvalidOperation`. -/
def parseDecimal (s : String) : Option ℚ :=
  let cs := trimWs s.data
  let sres := parseSign cs
  let mres := splitAtChar (fun c => c == 'e' || c == 'E') sres.2
  let ires := splitAtChar (fun c => c == '.') mres.1
  let ipart := ires.1
  let fpart := (ires.2).getD []
  if allDigits ipart ∧ allDigits fpart ∧ (ipart ≠ [] ∨ fpart ≠ []) then
    let M := digitsToNat (ipart ++ fpart)
    match mres.2 with
    | none => some (decValue sres.1 M fpart.length 0)
    | some e =>
      let eres := parseSign e
      match parseUnsignedInt eres.2 with
      | none => none
      | some n =>
        some (decValue sres.1 M fpart.length (if eres.1 then -(n : ℤ) else (n : ℤ)))
  else none

/-! ### Tolerant comparison (btfnpz.py)

`np.allclose(a, b)` is `all(|a - b| <= atol + rtol * |b|)` with the default
`rtol = 1e-5`, `atol = 1e-8`; in `angles_to_image` the first argument is the
stored row and the second the query. -/

/-- `np.allclose` default relative tolerance `1e-5`. -/
def rtol : ℚ := 1 / 100000

/-- `np.allclose` default absolute tolerance `1e-8`. -/
def atol : ℚ := 1 / 100000000

/-- Floating-point round-trip relative error bound (one ulp of a double,
`2 ^ (-52) = 1 / 4503599627370496`), the reading of the spec's "round-trip
tolerance". -/
def rtTol : ℚ := 1 / 4503599627370496

/-- An angle tuple in floating-point form. -/
abbrev Angle4 := ℚ × ℚ × ℚ × ℚ

/-- `np.isclose` for one component: `|a - b| <= atol + rtol * |b|`, stated
on numerators/denominators (both sides multiplied by the positive quantity
`10^8 * a.den * b.den`); `iscloseb_iff` below shows it is exactly the
tolerance inequality. -/
def iscloseb (a b : ℚ) : Bool :=
  decide (100000000 * intAbs (a.num * (b.den : ℤ) - b.num * (a.den : ℤ)) ≤
    (a.den : ℤ) * (b.den : ℤ) + 1000 * (intAbs b.num * (a.den : ℤ)))

/-- `np.allclose(angles, np.array((tl, pl, tv, pv)))` on a 4-tuple:
element-wise `isclose`, all four components. -/
def allclose (a b : Angle4) : Bool :=
  iscloseb a.1 b.1 && iscloseb a.2.1 b.2.1 &&
    iscloseb a.2.2.1 b.2.2.1 && iscloseb a.2.2.2 b.2.2.2

/-- One component of a query is within relative error `rtTol` of the stored
one: `|qc - ac| ≤ rtTol * |ac|`, stated on numerators/denominators (both
sides multiplied by the positive `2^52 * qc.den * ac.den`); `closeRT_iff`
below shows the equivalence. -/
def closeRT (qc ac : ℚ) : Prop :=
  4503599627370496 * intAbs (qc.num * (ac.den : ℤ) - ac.num * (qc.den : ℤ)) ≤
    intAbs ac.num * (qc.den : ℤ)

instance (qc ac : ℚ) : Decidable (closeRT qc ac) := by
  unfold closeRT; infer_instance

/-- `withinRoundTrip q a`: component-wise round-trip closeness (see above). -/
def withinRoundTrip (q a : Angle4) : Prop :=
  closeRT q.1 a.1 ∧ closeRT q.2.1 a.2.1 ∧ closeRT q.2.2.1 a.2.2.1 ∧
    closeRT q.2.2.2 a.2.2.2

instance (q a : Angle4) : Decidable (withinRoundTrip q a) := by
  unfold withinRoundTrip; infer_instance

/-! ### ndarray model

Only what the claims need: the shape, a flattened data list, and the
`flags.writeable` flag.  Basic indexing `arr[i]` of an array of shape
`n :: rest` produces a view of shape `rest` whose writeability is inherited
from the base array. -/

/-- A numpy array: shape, flattened contents, `flags.writeable`. -/
structure Ndarray where
  shape : List ℕ
  data : List ℚ
  writeable : Bool
deriving DecidableEq

/-- `arr.shape[0]` (number of entries along the leading axis). -/
def Ndarray.count (a : Ndarray) : ℕ := a.shape.headD 0

/-- `arr[i]`: the i-th slice along the leading axis; its shape is
`arr.shape[1:]` and it inherits the base array's writeability. -/
def Ndarray.sliceFirst (a : Ndarray) (i : ℕ) : Ndarray :=
  { shape := a.shape.tail
    data := (a.data.drop (i * a.shape.tail.prod)).take a.shape.tail.prod
    writeable := a.writeable }

/-! ### Packed reader `Btfnpz`

Both source variants load `npz["images"]` and `npz["angles"]`, set
`flags.writeable = False` on both, record `img_shape = images.shape[1:]` and
`angles_set = frozenset(tuple(a) for a in angles)`.  They differ only in the
attribute name of the image stack (`image_list` vs `images_list`) and in the
message of the not-found error. -/

/-- State of a constructed packed reader (either variant). -/
structure Btfnpz where
  npz_filepath : String
  image_list : Ndarray
  angles_list : Ndarray
deriving DecidableEq

/-- `Btfnpz.__init__`: keep the two arrays (as loaded from the npz archive)
and clear their `writeable` flags.  The npz loading itself is the external
array-archive codec of spec §6. -/
def Btfnpz.init (npz_filepath : String) (images angles : Ndarray) : Btfnpz :=
  { npz_filepath := npz_filepath
    image_list := { images with writeable := false }
    angles_list := { angles with writeable := false } }

/-- Rows of the (N, 4) angle table, as 4-tuples (`tuple(angles)` per row). -/
def toTuples : List ℚ → List Angle4
  | a :: b :: c :: d :: rest => (a, b, c, d) :: toTuples rest
  | _ => []

/-- The ordered angle sequence the lookup scans (`enumerate(self.angles_list)`). -/
def Btfnpz.anglesRows (b : Btfnpz) : List Angle4 := toTuples b.angles_list.data

/-- `angles_set`: the set of stored angle tuples (membership is what matters;
a duplicate-free list models the frozenset). -/
def Btfnpz.angles_set (b : Btfnpz) : List Angle4 := b.anglesRows.dedup

/-- `img_shape = images.shape[1:]`. -/
def Btfnpz.img_shape (b : Btfnpz) : List ℕ := b.image_list.shape.tail

/-- The scan of `angles_to_image`: first index whose stored row is
`np.allclose` to the query. -/
def findClose (q : Angle4) : List Angle4 → Option ℕ
  | [] => none
  | a :: rest =>
    if allclose a q then some 0 else (findClose q rest).map (· + 1)

/-- Not-found message of `btf_helper/btfnpz.py` line 60-62:
`f"condition ({tl}, {pl}, {tv}, {pv}) does not exist in '{path}'."`
(numeric formatting of the rationals is abstracted by `toString`). -/
def npzNotFoundMsg (tl pl tv pv : ℚ) (path : String) : String :=
  "condition (" ++ toString tl ++ ", " ++ toString pl ++ ", " ++ toString tv ++
    ", " ++ toString pv ++ ") does not exist in " ++ sq ++ path ++ sq ++ "."

/-- Not-found message of `btfnpz-helper/btfnpz.py` line 57:
`f"tl:{tl}, pl:{pl}, tv:{tv}, pv:{pv} not found"` — it does not mention the
archive path. -/
def npz2NotFoundMsg (tl pl tv pv : ℚ) : String :=
  "tl:" ++ toString tl ++ ", pl:" ++ toString pl ++ ", tv:" ++ toString tv ++
    ", pv:" ++ toString pv ++ " not found"

/-- `Btfnpz.angles_to_image` of `btf_helper/btfnpz.py`: scan from index 0,
return `image_list[i]` at the first `np.allclose` match, else raise
`ValueError` with the queried values and the archive path.  (numpy raises
`IndexError` when the matching index exceeds the image count.) -/
def Btfnpz.angles_to_image (b : Btfnpz) (tl pl tv pv : ℚ) : Except PyError Ndarray :=
  match findClose (tl, pl, tv, pv) b.anglesRows with
  | some i =>
    if i < b.image_list.count then .ok (b.image_list.sliceFirst i)
    else .error .indexError
  | none => .error (.valueError (npzNotFoundMsg tl pl tv pv b.npz_filepath))

/-- `Btfnpz.angles_to_image` of `btfnpz-helper/btfnpz.py`: identical scan,
but the not-found message carries only the queried values. -/
def Btfnpz.angles_to_image2 (b : Btfnpz) (tl pl tv pv : ℚ) : Except PyError Ndarray :=
  match findClose (tl, pl, tv, pv) b.anglesRows with
  | some i =>
    if i < b.image_list.count then .ok (b.image_list.sliceFirst i)
    else .error .indexError
  | none => .error (.valueError (npz2NotFoundMsg tl pl tv pv))

/-- State-passing form of the lookup (variant `btf_helper`): the method only
reads attributes, so it returns the receiver unchanged next to its result. -/
def Btfnpz.anglesToImageS (b : Btfnpz) (tl pl tv pv : ℚ) :
    Btfnpz × Except PyError Ndarray :=
  (b, b.angles_to_image tl pl tv pv)

/-- State-passing form of the lookup (variant `btfnpz-helper`). -/
def Btfnpz.anglesToImage2S (b : Btfnpz) (tl pl tv pv : ℚ) :
    Btfnpz × Except PyError Ndarray :=
  (b, b.angles_to_image2 tl pl tv pv)

/-! ### Filename reader `Btfzip`

The zip archive is modelled as the list of its entries (name, byte content);
`ZipFile.namelist()` is the list of names, `z.open(fp).read()` is the assoc
lookup of the content.  The image decoders (`cv2.imdecode`, `decode_jpeg`)
are external collaborators and appear as function parameters of the lookup:
`cv2.imdecode` returns `None` on undecodable bytes (hence `Option Ndarray`),
`simplejpeg.decode_jpeg` raises (hence `Except PyError Ndarray`). -/

/-- First-match association-list lookup. -/
def assoc {α β : Type} [DecidableEq α] (k : α) : List (α × β) → Option β
  | [] => none
  | kv :: rest => if kv.1 = k then some kv.2 else assoc k rest

/-- Python `str.endswith`. -/
def pyEndsWith (s suffixStr : String) : Bool :=
  suffixStr.data.isSuffixOf s.data

/-- Split at the first occurrence of a (nonempty) separator: the part before
it and the part after it, or `none` when the separator does not occur. -/
def splitFirst (sep : List Char) : List Char → Option (List Char × List Char)
  | [] => none
  | c :: rest =>
    if sep.isPrefixOf (c :: rest) then some ([], (c :: rest).drop sep.length)
    else (splitFirst sep rest).map (fun ab => (c :: ab.1, ab.2))

/-- Python `str.split(sep)` with a nonempty separator (fuel-driven so that it
evaluates by kernel reduction; the fuel `length + 1` always suffices). -/
def pySplitAux (sep : List Char) : ℕ → List Char → List (List Char)
  | 0, l => [l]
  | fuel + 1, l =>
    match splitFirst sep l with
    | none => [l]
    | some ab => ab.1 :: pySplitAux sep fuel ab.2

/-- Python `s.split(sep)` on strings. -/
def pySplit (s sep : String) : List String :=
  (pySplitAux sep.data (s.data.length + 1) s.data).map String.mk

/-- Python `s[:-n]`: all but the final `n` characters (empty when `n ≥ len`). -/
def pyDropRight (s : String) (n : ℕ) : String :=
  String.mk (s.data.take (s.data.length - n))

/-- `filename.split("/")[-1]`: the last path component. -/
def lastComponent (filename : String) : String :=
  (pySplit filename "/").getLastD ""

/-- The base-name computed by `_filename_to_angles` line 89: the last path
component with its final FOUR characters removed (`[:-4]`), whatever the
configured extension is. -/
def codeBase (filename : String) : String :=
  pyDropRight (lastComponent filename) 4

/-- Modelled from the spec: "parse its base filename (strip directory
components and the extension)" — the last path component with the whole
extension removed. -/
def specBase (filename ext : String) : String :=
  pyDropRight (lastComponent filename) ext.length

/-- One line of `_filename_to_angles`: `Decimal(angles[i][2:]).quantize(...)`.
Indexing past the end raises `IndexError`; a string `Decimal` cannot parse
raises `decimal.InvalidOperation`.  The surrounding `except ValueError`
clause of the source never fires on either: `IndexError` and
`InvalidOperation` are not subclasses of `ValueError`, so both propagate
as-is and the descriptive re-raise is dead code. -/
def parseAngleField (fields : List String) (i : ℕ) : Except PyError ℤ :=
  match fields.get? i with
  | none => .error .indexError
  | some f =>
    match parseDecimal (String.mk (f.data.drop 2)) with
    | none => .error .invalidOperation
    | some q => .ok (quantizeMilli q)

/-- The four sequential `Decimal(...)` lines of `_filename_to_angles`. -/
def parseFields (fields : List String) : Except PyError Key4 := do
  let tl ← parseAngleField fields 0
  let pl ← parseAngleField fields 1
  let tv ← parseAngleField fields 2
  let pv ← parseAngleField fields 3
  pure (tl, pl, tv, pv)

/-- `Btfzip._filename_to_angles(filename, sep)`:
`filename.split("/")[-1][:-4].split(sep)`, then the four quantized parses. -/
def filenameToAngles (filename sep : String) : Except PyError Key4 :=
  parseFields (pySplit (codeBase filename) sep)

/-- Modelled from the spec (C7's reading, for comparison): strip the whole
extension, split on the separator into exactly four fields, strip the
2-character tags and parse. -/
def specFilenameToAngles (filename ext sep : String) : Except PyError Key4 :=
  let fields := pySplit (specBase filename ext) sep
  if fields.length = 4 then parseFields fields
  else .error (.valueError "expected exactly four angle fields")

/-- Modelled from the spec as amended for C7: strip the whole extension,
split on the separator, parse the first four tag-stripped fields (extra
fields are ignored, missing ones raise `IndexError`). -/
def specFilenameToAnglesFirst4 (filename ext sep : String) : Except PyError Key4 :=
  parseFields (pySplit (specBase filename ext) sep)

/-- The dict comprehension of `Btfzip.__init__` lines 62-64, in iteration
order: parse every filtered name, stopping at the first parse failure. -/
def buildDict (sep : String) : List String → Except PyError (List (Key4 × String))
  | [] => .ok []
  | p :: rest =>
    match filenameToAngles p sep with
    | .error e => .error e
    | .ok k =>
      match buildDict sep rest with
      | .error e => .error e
      | .ok ps => .ok ((k, p) :: ps)

/-- The `TypeError` message of the duplicate branch: line 69 calls
`self._filename_to_angles(path)` without the required `sep` argument. -/
def dupTypeErrorMsg : String :=
  "_filename_to_angles() missing 1 required positional argument: " ++
    sq ++ "sep" ++ sq

/-- `filepath_set`: the names of the zip entries that end with the extension
filter (a Python set: deduplicated; iteration order is irrelevant on every
path, see `Btfzip.init`). -/
def filteredNames (entries : List (String × List ℕ)) (ext : String) : List String :=
  ((entries.map Prod.fst).filter (fun p => pyEndsWith p ext)).dedup

/-- State of a constructed filename reader. -/
structure Btfzip where
  zip_filepath : String
  entries : List (String × List ℕ)
  dict : List (Key4 × String)
  jpegMode : Bool
deriving DecidableEq

/-- `z.open(filepath); f.read()`: content of a named entry. -/
def Btfzip.content (b : Btfzip) (fp : String) : List ℕ :=
  (assoc fp b.entries).getD []

/-- `angles_set = frozenset(dict.keys())`. -/
def Btfzip.angles_set (b : Btfzip) : List Key4 :=
  (b.dict.map Prod.fst).dedup

/-- `Btfzip.__init__`.  Returns the lines printed to stderr alongside the
result.  Plays out lines 55-83 of btfzip.py:

1. `filepath_set`: names ending with `file_ext` (a set: deduplicated);
2. the dict comprehension, whose `_filename_to_angles` calls can raise;
3. the duplicate check `len(filepath_set) != len(angles_set)`; in that branch
   line 69 evaluates `[self._filename_to_angles(path) for path in filepath_set]`
   — missing the positional `sep` — so Python raises `TypeError` there,
   BEFORE any diagnostic `print` and before the `RuntimeError` of line 78:
   construction fails with `TypeError` and nothing is written to stderr;
4. otherwise the reader is usable; `angles_to_image` is bound to the
   simplejpeg variant for `.jpg`/`.jpeg`, the cv2 variant otherwise. -/
def Btfzip.init (entries : List (String × List ℕ))
    (zip_filepath file_ext angle_sep : String) :
    List String × Except PyError Btfzip :=
  match buildDict angle_sep (filteredNames entries file_ext) with
  | .error e => ([], .error e)
  | .ok ps =>
    if (filteredNames entries file_ext).length ≠ ((ps.map Prod.fst).dedup).length then
      ([], .error (.typeError dupTypeErrorMsg))
    else
      ([], .ok { zip_filepath := zip_filepath
                 entries := entries
                 dict := ps
                 jpegMode := file_ext == ".jpg" || file_ext == ".jpeg" })

/-- `repr` of one quantized Decimal inside the f-string of the not-found
message: `Decimal('999.000')`. -/
def renderDec (k : ℤ) : String :=
  let n := k.natAbs
  let fracNum := n % 1000
  let fracStr :=
    if fracNum < 10 then "00" ++ toString fracNum
    else if fracNum < 100 then "0" ++ toString fracNum
    else toString fracNum
  (if k < 0 then "-" else "") ++ toString (n / 1000) ++ "." ++ fracStr

/-- `repr` of the key tuple inside the not-found f-string. -/
def renderKey (key : Key4) : String :=
  let one := fun (k : ℤ) => "Decimal(" ++ sq ++ renderDec k ++ sq ++ ")"
  "(" ++ one key.1 ++ ", " ++ one key.2.1 ++ ", " ++ one key.2.2.1 ++ ", " ++
    one key.2.2.2 ++ ")"

/-- `f"Condition {key} does not exist in '{zip_filepath}'."`. -/
def zipNotFoundMsg (key : Key4) (path : String) : String :=
  "Condition " ++ renderKey key ++ " does not exist in " ++ sq ++ path ++ sq ++ "."

/-- `Btfzip._angles_to_image_cv2`: quantize the four inputs, look the key up,
raise `ValueError` when the lookup yields nothing (or an empty name — Python
tests falsiness, `if not filepath`), else decode the entry's bytes with
`cv2.imdecode` (which returns `None`, not an exception, on failure). -/
def Btfzip.anglesToImageCv2 (b : Btfzip) (imdecode : List ℕ → Option Ndarray)
    (tl pl tv pv : ℚ) : Except PyError (Option Ndarray) :=
  let key := quantKey4 tl pl tv pv
  match assoc key b.dict with
  | none => .error (.valueError (zipNotFoundMsg key b.zip_filepath))
  | some fp =>
    if fp = "" then .error (.valueError (zipNotFoundMsg key b.zip_filepath))
    else .ok (imdecode (b.content fp))

/-- `Btfzip._angles_to_image_simplejpeg`: same key logic; `decode_jpeg`
raises on failure, so decode errors propagate. -/
def Btfzip.anglesToImageSimplejpeg (b : Btfzip)
    (decodeJpeg : List ℕ → Except PyError Ndarray)
    (tl pl tv pv : ℚ) : Except PyError Ndarray :=
  let key := quantKey4 tl pl tv pv
  match assoc key b.dict with
  | none => .error (.valueError (zipNotFoundMsg key b.zip_filepath))
  | some fp =>
    if fp = "" then .error (.valueError (zipNotFoundMsg key b.zip_filepath))
    else decodeJpeg (b.content fp)

/-! ### Concrete fixtures

Small concrete readers used by the counterexamples and witnesses below.
`Rat.divInt` is used to write non-integral rational literals because it
evaluates by kernel reduction. -/

/-- Truncation of a rational to 3 decimal digits (the integer of
milli-degrees obtained by cutting after the third decimal): the
formalization of "the first three decimal digits" used to state that two
values "differ only beyond the 3rd decimal digit". -/
def trunc3 (x : ℚ) : ℤ := Int.fdiv (1000 * x.num) (x.den : ℤ)

/-- The first angle at which the `np.allclose` test against `(0,0,0,0)`
flips: `1 / 99999000` satisfies `|x| ≤ atol + rtol * |x|` with equality. -/
def cexBoundary : ℚ := Rat.divInt 1 99999000

/-- `cexBoundary * (1 + 2 ^ (-53))`: one half-ulp above the boundary, so it
no longer `np.allclose`-matches `(0,0,0,0)`, yet `cexBoundary` is within
round-trip tolerance of it. -/
def cexAbove : ℚ := Rat.divInt 9007199254740993 900710918274844459008000

/-- Packed reader whose two stored tuples are `(0,0,0,0)` and
`(cexAbove,0,0,0)`, with distinguishable images `[7]` and `[9]`. -/
def npzCex : Btfnpz :=
  Btfnpz.init "example.btf"
    { shape := [2, 1], data := [7, 9], writeable := true }
    { shape := [2, 4], data := [0, 0, 0, 0, cexAbove, 0, 0, 0], writeable := true }

/-- Packed reader with the single stored tuple `(1,0,0,0)` and image `[5]`. -/
def npzW : Btfnpz :=
  Btfnpz.init "w.btf"
    { shape := [1, 1], data := [5], writeable := true }
    { shape := [1, 4], data := [1, 0, 0, 0], writeable := true }

/-- `1 + 2 ^ (-52)`: within round-trip tolerance of the stored `1`. -/
def wNear : ℚ := Rat.divInt 4503599627370497 4503599627370496

/-- Filename reader over a two-entry archive with angles `10.250` and
`10.251` (already constructed; `Btfzip.init` on its entries reproduces it,
see `zipCex_init`). -/
def zipCex : Btfzip :=
  { zip_filepath := "a.zip"
    entries := [("tl10.250 pl0 tv0 pv0.exr", [7]), ("tl10.251 pl0 tv0 pv0.exr", [8])]
    dict := [((10250, 0, 0, 0), "tl10.250 pl0 tv0 pv0.exr"),
             ((10251, 0, 0, 0), "tl10.251 pl0 tv0 pv0.exr")]
    jpegMode := false }

/-- A stand-in for `cv2.imdecode`, recording the byte string it was given in
the shape of the returned array. -/
def imdecCex : List ℕ → Option Ndarray :=
  fun bs => some { shape := bs, data := [], writeable := true }

/-- A stand-in for `simplejpeg.decode_jpeg`. -/
def decjCex : List ℕ → Except PyError Ndarray :=
  fun bs => .ok { shape := bs, data := [], writeable := true }

end BTF
namespace BTF

/-! ### Arithmetic bridge lemmas -/

theorem intAbs_eq_abs (x : ℤ) : intAbs x = |x| := by
  unfold intAbs
  rcases lt_or_le x 0 with h | h
  · rw [if_pos h, abs_of_neg h]
  · rw [if_neg (not_lt.mpr h), abs_of_nonneg h]

theorem intAbs_nonneg (x : ℤ) : 0 ≤ intAbs x := by
  rw [intAbs_eq_abs]; exact abs_nonneg x

theorem den_cast_pos (a : ℚ) : (0 : ℚ) < (a.den : ℚ) := by
  exact_mod_cast a.den_pos

theorem num_eq_mul_den (a : ℚ) : (a.num : ℚ) = a * (a.den : ℚ) :=
  (div_eq_iff (ne_of_gt (den_cast_pos a))).mp (Rat.num_div_den a)

theorem abs_sub_eq_div (a b : ℚ) :
    |a - b| = ((intAbs (a.num * (b.den : ℤ) - b.num * (a.den : ℤ)) : ℤ) : ℚ) /
      ((a.den : ℚ) * (b.den : ℚ)) := by
  have hD : (0 : ℚ) < (a.den : ℚ) * (b.den : ℚ) :=
    mul_pos (den_cast_pos a) (den_cast_pos b)
  have h1 : a - b = ((a.num * (b.den : ℤ) - b.num * (a.den : ℤ) : ℤ) : ℚ) /
      ((a.den : ℚ) * (b.den : ℚ)) := by
    rw [eq_div_iff (ne_of_gt hD)]
    push_cast
    rw [num_eq_mul_den a, num_eq_mul_den b]
    ring
  rw [h1, abs_div, abs_of_pos hD, intAbs_eq_abs, Int.cast_abs]

theorem abs_eq_div (b : ℚ) :
    |b| = ((intAbs b.num : ℤ) : ℚ) / (b.den : ℚ) := by
  conv_lhs => rw [← Rat.num_div_den b]
  rw [abs_div, abs_of_pos (den_cast_pos b), intAbs_eq_abs, Int.cast_abs]

theorem iscloseb_iff (a b : ℚ) :
    iscloseb a b = true ↔ |a - b| ≤ atol + rtol * |b| := by
  unfold iscloseb
  have hD : (0 : ℚ) < (a.den : ℚ) * (b.den : ℚ) :=
    mul_pos (den_cast_pos a) (den_cast_pos b)
  have expand : (atol + rtol * (((intAbs b.num : ℤ) : ℚ) / (b.den : ℚ))) *
      ((a.den : ℚ) * (b.den : ℚ)) =
      ((a.den : ℚ) * (b.den : ℚ)) / 100000000 +
        (((intAbs b.num : ℤ) : ℚ) * (a.den : ℚ)) / 100000 := by
    unfold atol rtol
    field_simp
    ring
  rw [decide_eq_true_eq, ← @Int.cast_le ℚ _ _ _]
  push_cast
  rw [abs_sub_eq_div a b, abs_eq_div b, div_le_iff₀ hD, expand]
  constructor <;> intro h <;> linarith

theorem closeRT_iff (qc ac : ℚ) :
    closeRT qc ac ↔ |qc - ac| ≤ rtTol * |ac| := by
  unfold closeRT
  have hD : (0 : ℚ) < (qc.den : ℚ) * (ac.den : ℚ) :=
    mul_pos (den_cast_pos qc) (den_cast_pos ac)
  have expand : (rtTol * (((intAbs ac.num : ℤ) : ℚ) / (ac.den : ℚ))) *
      ((qc.den : ℚ) * (ac.den : ℚ)) =
      (((intAbs ac.num : ℤ) : ℚ) * (qc.den : ℚ)) / 4503599627370496 := by
    unfold rtTol
    field_simp
    ring
  rw [← @Int.cast_le ℚ _ _ _]
  push_cast
  rw [abs_sub_eq_div qc ac, abs_eq_div ac, div_le_iff₀ hD, expand]
  constructor <;> intro h <;> linarith

theorem isclose_of_closeRT {qc ac : ℚ} (h : closeRT qc ac) :
    iscloseb ac qc = true := by
  rw [iscloseb_iff]
  rw [closeRT_iff] at h
  have h2 : |ac| - |qc| ≤ |ac - qc| := abs_sub_abs_le_abs_sub ac qc
  have h3 : |ac - qc| = |qc - ac| := abs_sub_comm ac qc
  have h4 : (0 : ℚ) ≤ |qc| := abs_nonneg qc
  have h5 : (0 : ℚ) ≤ |ac| := abs_nonneg ac
  rw [h3]
  rw [h3] at h2
  unfold rtTol at h
  unfold atol rtol
  linarith

theorem allclose_of_withinRoundTrip {q a : Angle4} (h : withinRoundTrip q a) :
    allclose a q = true := by
  obtain ⟨h1, h2, h3, h4⟩ := h
  simp only [allclose, Bool.and_eq_true]
  exact ⟨⟨⟨isclose_of_closeRT h1, isclose_of_closeRT h2⟩,
    isclose_of_closeRT h3⟩, isclose_of_closeRT h4⟩

theorem iscloseb_self (a : ℚ) : iscloseb a a = true := by
  unfold iscloseb
  rw [decide_eq_true_eq]
  have hd : (0 : ℤ) < (a.den : ℤ) := by exact_mod_cast a.den_pos
  have h0 : a.num * (a.den : ℤ) - a.num * (a.den : ℤ) = 0 := by ring
  rw [h0]
  have hz : intAbs 0 = 0 := rfl
  rw [hz]
  nlinarith [intAbs_nonneg a.num]

theorem allclose_self (t : Angle4) : allclose t t = true := by
  simp only [allclose, Bool.and_eq_true]
  exact ⟨⟨⟨iscloseb_self _, iscloseb_self _⟩, iscloseb_self _⟩, iscloseb_self _⟩

/-! ### Scan lemmas -/

theorem findClose_lt_length {q : Angle4} :
    ∀ {rows : List Angle4} {i : ℕ}, findClose q rows = some i → i < rows.length := by
  intro rows
  induction rows with
  | nil => intro i h; simp [findClose] at h
  | cons a rest ih =>
    intro i h
    unfold findClose at h
    split_ifs at h with hc
    · injection h with h
      subst h
      simp
    · rcases hrec : findClose q rest with _ | j
      · rw [hrec] at h; simp at h
      · rw [hrec] at h
        have h2 : some (j + 1) = some i := h
        injection h2 with h
        have := ih hrec
        simp only [List.length_cons]
        omega

theorem findClose_isSome_of_mem {t : Angle4} :
    ∀ {rows : List Angle4}, t ∈ rows → ∃ i, findClose t rows = some i := by
  intro rows
  induction rows with
  | nil => intro h; simp at h
  | cons a rest ih =>
    intro h
    unfold findClose
    by_cases hc : allclose a t = true
    · exact ⟨0, by rw [if_pos hc]⟩
    · have ha : t ≠ a := by
        intro he; subst he; exact hc (allclose_self t)
      have hmem : t ∈ rest := by
        rcases List.mem_cons.mp h with h1 | h1
        · exact absurd h1 ha
        · exact h1
      obtain ⟨j, hj⟩ := ih hmem
      exact ⟨j + 1, by rw [if_neg hc, hj]; rfl⟩

theorem findClose_congr {a : Angle4} :
    ∀ {rows : List Angle4} {j : ℕ} {q q2 : Angle4},
      rows.get? j = some a → allclose a q = true → allclose a q2 = true →
      (∀ i ai, i < j → rows.get? i = some ai → allclose ai q = allclose ai q2) →
      findClose q rows = findClose q2 rows := by
  intro rows
  induction rows with
  | nil => intro j q q2 hj; simp at hj
  | cons r rest ih =>
    intro j q q2 hj hq hq2 hiff
    cases j with
    | zero =>
      simp only [List.get?] at hj
      injection hj with hj
      subst hj
      unfold findClose
      rw [if_pos hq, if_pos hq2]
    | succ j0 =>
      have hhead : allclose r q = allclose r q2 :=
        hiff 0 r (Nat.succ_pos j0) rfl
      have htail : findClose q rest = findClose q2 rest := by
        apply ih (j := j0) hj hq hq2
        intro i ai hi hgi
        exact hiff (i + 1) ai (Nat.succ_lt_succ hi) hgi
      unfold findClose
      rw [hhead, htail]

/-! ### Quantization lemmas -/

theorem quantAux_mul_self (k d : ℤ) (hd : 0 < d) : quantAux (k * d) d = k := by
  unfold quantAux
  rw [Int.mul_fdiv_cancel _ (ne_of_gt hd)]
  have h0 : 2 * (k * d - k * d) < d := by
    have he : k * d - k * d = 0 := by ring
    rw [he]
    omega
  rw [if_pos h0]

theorem quantizeMilli_milli (k : ℤ) : quantizeMilli (milli k) = k := by
  unfold quantizeMilli
  set x : ℚ := milli k with hx
  have hd0 : (0 : ℤ) < (x.den : ℤ) := by exact_mod_cast x.den_pos
  have hmul : x * 1000 = (k : ℚ) := by
    rw [hx]; unfold milli; field_simp
  have key : 1000 * x.num = k * (x.den : ℤ) := by
    have hq : ((1000 * x.num : ℤ) : ℚ) = ((k * (x.den : ℤ) : ℤ) : ℚ) := by
      push_cast
      rw [num_eq_mul_den x, ← hmul]
      ring
    exact_mod_cast hq
  rw [key, quantAux_mul_self _ _ hd0]

theorem quantKey4_milli (k : Key4) :
    quantKey4 (milli k.1) (milli k.2.1) (milli k.2.2.1) (milli k.2.2.2) = k := by
  unfold quantKey4
  rw [quantizeMilli_milli, quantizeMilli_milli, quantizeMilli_milli, quantizeMilli_milli]

end BTF
namespace BTF

/-! ### Association list and construction lemmas -/

theorem assoc_eq_none_iff {α β : Type} [DecidableEq α] {k : α} :
    ∀ {ps : List (α × β)}, assoc k ps = none ↔ k ∉ ps.map Prod.fst := by
  intro ps
  induction ps with
  | nil => simp [assoc]
  | cons kv rest ih =>
    unfold assoc
    by_cases hk : kv.1 = k
    · rw [if_pos hk]
      simp [hk]
    · rw [if_neg hk]
      simp only [List.map_cons, List.mem_cons]
      rw [ih]
      constructor
      · intro h hmem
        rcases hmem with h1 | h1
        · exact hk h1.symm
        · exact h h1
      · intro h hmem
        exact h (Or.inr hmem)

theorem assoc_mem {α β : Type} [DecidableEq α] {k : α} {v : β} :
    ∀ {ps : List (α × β)}, assoc k ps = some v → (k, v) ∈ ps := by
  intro ps
  induction ps with
  | nil => intro h; simp [assoc] at h
  | cons kv rest ih =>
    intro h
    unfold assoc at h
    split_ifs at h with hk
    · injection h with h
      subst h
      subst hk
      exact List.mem_cons_self _ _
    · exact List.mem_cons_of_mem _ (ih h)

theorem exists_assoc_of_mem {α β : Type} [DecidableEq α] {k : α}
    {ps : List (α × β)} (h : k ∈ ps.map Prod.fst) :
    ∃ v, assoc k ps = some v := by
  rcases ha : assoc k ps with _ | v
  · exact absurd (assoc_eq_none_iff.mp ha) (not_not.mpr h)
  · exact ⟨v, rfl⟩

theorem buildDict_mem {sep : String} :
    ∀ {l : List String} {ps : List (Key4 × String)},
      buildDict sep l = .ok ps → ∀ {k p}, (k, p) ∈ ps →
      p ∈ l ∧ filenameToAngles p sep = .ok k := by
  intro l
  induction l with
  | nil =>
    intro ps h k p hm
    unfold buildDict at h
    injection h with h
    subst h
    simp at hm
  | cons q rest ih =>
    intro ps h k p hm
    unfold buildDict at h
    rcases hq : filenameToAngles q sep with e | kq
    · rw [hq] at h; exact absurd h (by simp)
    · rw [hq] at h
      rcases hr : buildDict sep rest with e | ps0
      · rw [hr] at h; exact absurd h (by simp)
      · rw [hr] at h
        injection h with h
        subst h
        rcases List.mem_cons.mp hm with h1 | h1
        · have hk : k = kq ∧ p = q := by
            constructor
            · exact congrArg Prod.fst h1
            · exact congrArg Prod.snd h1
          obtain ⟨hk1, hk2⟩ := hk
          subst hk1; subst hk2
          exact ⟨List.mem_cons_self _ _, hq⟩
        · obtain ⟨hmem, hok⟩ := ih hr h1
          exact ⟨List.mem_cons_of_mem _ hmem, hok⟩

theorem mem_filteredNames {entries : List (String × List ℕ)} {ext p : String}
    (h : p ∈ filteredNames entries ext) : pyEndsWith p ext = true := by
  unfold filteredNames at h
  exact (List.mem_filter.mp (List.mem_dedup.mp h)).2

theorem pyEndsWith_ne_empty {s ext : String} (h : pyEndsWith s ext = true)
    (hne : ext ≠ "") : s ≠ "" := by
  unfold pyEndsWith at h
  intro hs
  subst hs
  have hsuf : ext.data <:+ ("" : String).data := by
    exact List.isSuffixOf_iff_suffix.mp h
  have hnil : ("" : String).data = [] := rfl
  rw [hnil] at hsuf
  have hd : ext.data = [] := List.eq_nil_of_suffix_nil hsuf
  apply hne
  apply String.ext
  rw [hd]

theorem Btfzip.init_ok {entries : List (String × List ℕ)}
    {path ext sep : String} {out : List String} {b : Btfzip}
    (h : Btfzip.init entries path ext sep = (out, .ok b)) :
    b.zip_filepath = path ∧ b.entries = entries ∧
      buildDict sep (filteredNames entries ext) = .ok b.dict := by
  unfold Btfzip.init at h
  rcases hbd : buildDict sep (filteredNames entries ext) with e | ps
  · rw [hbd] at h
    exact absurd (congrArg Prod.snd h) (by simp)
  · rw [hbd] at h
    dsimp only at h
    split_ifs at h with hlen
    · exact absurd (congrArg Prod.snd h) (by simp)
    · have hsnd := congrArg Prod.snd h
      dsimp only at hsnd
      injection hsnd with hb
      subst hb
      exact ⟨rfl, rfl, rfl⟩

end BTF
namespace BTF

/-- C1 (amended): if the query is within floating-point round-trip tolerance
of the stored tuple at index `j`, and every earlier stored tuple's tolerant
comparison gives the same verdict for the query as for the exact stored
values, then lookup returns the image at the same first matching index, i.e.
the same image as looking up the exact stored values. -/
theorem C1_amended (b : Btfnpz) (tl pl tv pv tl2 pl2 tv2 pv2 : ℚ) (j : ℕ)
    (hj : b.anglesRows.get? j = some (tl2, pl2, tv2, pv2))
    (hrt : withinRoundTrip (tl, pl, tv, pv) (tl2, pl2, tv2, pv2))
    (hsame : ∀ i ai, i < j → b.anglesRows.get? i = some ai →
      allclose ai (tl, pl, tv, pv) = allclose ai (tl2, pl2, tv2, pv2)) :
    b.angles_to_image tl pl tv pv = b.angles_to_image tl2 pl2 tv2 pv2 := by
  have hq : allclose (tl2, pl2, tv2, pv2) (tl, pl, tv, pv) = true :=
    allclose_of_withinRoundTrip hrt
  have ha : allclose (tl2, pl2, tv2, pv2) (tl2, pl2, tv2, pv2) = true :=
    allclose_self _
  have hfc : findClose (tl, pl, tv, pv) b.anglesRows =
      findClose (tl2, pl2, tv2, pv2) b.anglesRows :=
    findClose_congr hj hq ha hsame
  obtain ⟨i, hi⟩ : ∃ i, findClose (tl2, pl2, tv2, pv2) b.anglesRows = some i :=
    findClose_isSome_of_mem (List.get?_mem hj)
  unfold Btfnpz.angles_to_image
  rw [hfc, hi]

/-- C1 (counterexample to the claim as stated): in `npzCex` the query
`(cexBoundary, 0, 0, 0)` is within round-trip tolerance of the stored tuple
`(cexAbove, 0, 0, 0)` at index 1, yet the lookup returns the image at index 0
(the boundary query also `np.allclose`-matches the earlier stored tuple
`(0,0,0,0)`), a different image from the exact-value lookup. -/
theorem C1_counterexample :
    npzCex.anglesRows.get? 1 = some (cexAbove, 0, 0, 0) ∧
    withinRoundTrip (cexBoundary, 0, 0, 0) (cexAbove, 0, 0, 0) ∧
    npzCex.angles_to_image cexBoundary 0 0 0 ≠
      npzCex.angles_to_image cexAbove 0 0 0 :=
  ⟨by decide, by decide, by decide⟩

/-- Witness for `C1_amended` at a concrete input. -/
theorem C1_amended_witness :
    npzW.anglesRows.get? 0 = some (1, 0, 0, 0) ∧
    withinRoundTrip (wNear, 0, 0, 0) (1, 0, 0, 0) ∧
    npzW.angles_to_image wNear 0 0 0 = npzW.angles_to_image 1 0 0 0 :=
  ⟨by decide, by decide,
    C1_amended npzW wNear 0 0 0 1 0 0 0 0 (by decide) (by decide)
      (fun i ai hi _ => absurd hi (Nat.not_lt_zero i))⟩

/-- C2 (counterexample to the claim as stated): `10.2505` and `10.2506`
agree in every digit up to the 3rd decimal (equal 3-decimal truncations) yet
quantize to different keys (half-even rounding sends `10.2505` to `10.250`
and `10.2506` to `10.251`) and resolve to different archive entries. -/
theorem C2_counterexample :
    trunc3 (Rat.divInt 102505 10000) = trunc3 (Rat.divInt 102506 10000) ∧
    quantizeMilli (Rat.divInt 102505 10000) ≠ quantizeMilli (Rat.divInt 102506 10000) ∧
    zipCex.anglesToImageCv2 imdecCex (Rat.divInt 102505 10000) 0 0 0 ≠
      zipCex.anglesToImageCv2 imdecCex (Rat.divInt 102506 10000) 0 0 0 :=
  ⟨by decide, by decide, by decide⟩

/-- C2 (amended): quantization is idempotent (an exact 3-decimal value
quantizes to itself), `10.2501` and `10.2502` quantize to the same key, and
any two lookup inputs with equal quantized keys resolve to the same archive
entry. -/
theorem C2_amended :
    (∀ k : ℤ, quantizeMilli (milli k) = k) ∧
    quantizeMilli (Rat.divInt 102501 10000) = quantizeMilli (Rat.divInt 102502 10000) ∧
    (∀ (b : Btfzip) (imdec : List ℕ → Option Ndarray) (tl pl tv pv tl2 pl2 tv2 pv2 : ℚ),
      quantKey4 tl pl tv pv = quantKey4 tl2 pl2 tv2 pv2 →
      b.anglesToImageCv2 imdec tl pl tv pv = b.anglesToImageCv2 imdec tl2 pl2 tv2 pv2) :=
  ⟨quantizeMilli_milli, by decide,
    fun b imdec tl pl tv pv tl2 pl2 tv2 pv2 h => by
      unfold Btfzip.anglesToImageCv2
      rw [h]⟩

/-- Witness for `C2_amended` at concrete inputs. -/
theorem C2_amended_witness :
    quantizeMilli (milli 10250) = 10250 ∧
    zipCex.anglesToImageCv2 imdecCex (Rat.divInt 102501 10000) 0 0 0 =
      zipCex.anglesToImageCv2 imdecCex (Rat.divInt 102502 10000) 0 0 0 :=
  ⟨C2_amended.1 10250,
    C2_amended.2.2 zipCex imdecCex _ _ _ _ _ _ _ _ (by decide)⟩

/-- C3 (code bug): on an archive whose two filtered entries carry the same
angles, construction evaluates line 69's `self._filename_to_angles(path)`
— missing the required positional `sep` — so Python raises `TypeError`
before printing any diagnostic (stderr output is empty) and before reaching
the `RuntimeError`, contradicting the constructor's own docstring. -/
theorem C3_code_bug :
    Btfzip.init [("tl0 pl0 tv0 pv0.exr", [1]), ("d/tl0 pl0 tv0 pv0.exr", [2])]
      "dup.zip" ".exr" " " = ([], .error (.typeError dupTypeErrorMsg)) := by
  decide

end BTF
namespace BTF

/-- C4 (confirmed): a lookup whose quantized key is not in the mapping fails,
on both decode paths, with a `ValueError` whose message carries the quantized
key and the archive path, and returns no image. -/
theorem C4_notfound (b : Btfzip) (imdec : List ℕ → Option Ndarray)
    (decj : List ℕ → Except PyError Ndarray) (tl pl tv pv : ℚ)
    (h : quantKey4 tl pl tv pv ∉ b.angles_set) :
    b.anglesToImageCv2 imdec tl pl tv pv =
      .error (.valueError (zipNotFoundMsg (quantKey4 tl pl tv pv) b.zip_filepath)) ∧
    b.anglesToImageSimplejpeg decj tl pl tv pv =
      .error (.valueError (zipNotFoundMsg (quantKey4 tl pl tv pv) b.zip_filepath)) ∧
    b.zip_filepath.data <:+:
      (zipNotFoundMsg (quantKey4 tl pl tv pv) b.zip_filepath).data ∧
    (renderKey (quantKey4 tl pl tv pv)).data <:+:
      (zipNotFoundMsg (quantKey4 tl pl tv pv) b.zip_filepath).data := by
  have hassoc : assoc (quantKey4 tl pl tv pv) b.dict = none := by
    rw [assoc_eq_none_iff]
    intro hmem
    exact h (by unfold Btfzip.angles_set; exact List.mem_dedup.mpr hmem)
  refine ⟨?_, ?_, ?_, ?_⟩
  · unfold Btfzip.anglesToImageCv2
    dsimp only
    rw [hassoc]
  · unfold Btfzip.anglesToImageSimplejpeg
    dsimp only
    rw [hassoc]
  · refine ⟨("Condition " ++ renderKey (quantKey4 tl pl tv pv) ++
      " does not exist in " ++ sq).data, (sq ++ ".").data, ?_⟩
    simp [zipNotFoundMsg, String.data_append, List.append_assoc]
  · refine ⟨("Condition " : String).data, (" does not exist in " ++ sq ++
      b.zip_filepath ++ sq ++ ".").data, ?_⟩
    simp [zipNotFoundMsg, String.data_append, List.append_assoc]

/-- Witness for `C4_notfound` at a concrete input (`lookup(999,999,999,999)`
on `zipCex`). -/
theorem C4_notfound_witness :
    zipCex.anglesToImageCv2 imdecCex 999 999 999 999 =
      .error (.valueError (zipNotFoundMsg (quantKey4 999 999 999 999) zipCex.zip_filepath)) ∧
    zipCex.anglesToImageSimplejpeg decjCex 999 999 999 999 =
      .error (.valueError (zipNotFoundMsg (quantKey4 999 999 999 999) zipCex.zip_filepath)) ∧
    zipCex.zip_filepath.data <:+:
      (zipNotFoundMsg (quantKey4 999 999 999 999) zipCex.zip_filepath).data ∧
    (renderKey (quantKey4 999 999 999 999)).data <:+:
      (zipNotFoundMsg (quantKey4 999 999 999 999) zipCex.zip_filepath).data :=
  C4_notfound zipCex imdecCex decjCex 999 999 999 999 (by decide)

/-- C5 (amended): when no stored tuple matches, the `btf_helper` packed
reader raises a `ValueError` carrying the queried values and the archive
path (the path occurs in the message); the `btfnpz-helper` variant raises a
`ValueError` built from the queried values only; both lookups leave the
reader state unchanged. -/
theorem C5_amended (b : Btfnpz) (tl pl tv pv : ℚ)
    (h : findClose (tl, pl, tv, pv) b.anglesRows = none) :
    b.angles_to_image tl pl tv pv =
      .error (.valueError (npzNotFoundMsg tl pl tv pv b.npz_filepath)) ∧
    b.npz_filepath.data <:+: (npzNotFoundMsg tl pl tv pv b.npz_filepath).data ∧
    b.angles_to_image2 tl pl tv pv =
      .error (.valueError (npz2NotFoundMsg tl pl tv pv)) ∧
    (b.anglesToImageS tl pl tv pv).1 = b ∧
    (b.anglesToImage2S tl pl tv pv).1 = b := by
  refine ⟨?_, ?_, ?_, rfl, rfl⟩
  · unfold Btfnpz.angles_to_image
    rw [h]
  · refine ⟨("condition (" ++ toString tl ++ ", " ++ toString pl ++ ", " ++
      toString tv ++ ", " ++ toString pv ++ ") does not exist in " ++ sq).data,
      (sq ++ ".").data, ?_⟩
    simp [npzNotFoundMsg, String.data_append, List.append_assoc]
  · unfold Btfnpz.angles_to_image2
    rw [h]

/-- C5 (counterexample to the claim as stated): the `btfnpz-helper` variant's
not-found error does not carry the archive path — its message for
`lookup(999,999,999,999)` on a reader over `"w.btf"` does not contain the
path at all. -/
theorem C5_counterexample :
    npzW.angles_to_image2 999 999 999 999 =
      .error (.valueError (npz2NotFoundMsg 999 999 999 999)) ∧
    npzW.npz_filepath ≠ "" ∧
    ¬ (npzW.npz_filepath.data <:+: (npz2NotFoundMsg 999 999 999 999).data) :=
  ⟨by decide, by decide, by decide⟩

/-- Witness for `C5_amended` at a concrete input. -/
theorem C5_amended_witness :
    npzW.angles_to_image 999 999 999 999 =
      .error (.valueError (npzNotFoundMsg 999 999 999 999 npzW.npz_filepath)) ∧
    npzW.npz_filepath.data <:+: (npzNotFoundMsg 999 999 999 999 npzW.npz_filepath).data ∧
    npzW.angles_to_image2 999 999 999 999 =
      .error (.valueError (npz2NotFoundMsg 999 999 999 999)) ∧
    (npzW.anglesToImageS 999 999 999 999).1 = npzW ∧
    (npzW.anglesToImage2S 999 999 999 999).1 = npzW :=
  C5_amended npzW 999 999 999 999 (by decide)

/-- C6 (code bug): a filtered entry with non-numeric content after the tag
(`"tlxx ..."`) makes construction fail with `decimal.InvalidOperation` — not
a `ValueError` — so the `except ValueError` clause of
`_filename_to_angles` never fires and no descriptive error naming the
malformed filename is produced. -/
theorem C6_code_bug :
    Btfzip.init [("tlxx pl0 tv0 pv0.exr", [1])] "bad.zip" ".exr" " " =
      ([], .error .invalidOperation) := by
  decide

/-- C7 (counterexample to the claim as stated): with the extension filter
`".jpeg"` the code's base name keeps a trailing character of the extension
(`[:-4]` removes only 4 characters), and a base name with five
separator-fields parses fine (extras ignored) where the spec's "exactly four
angle fields" reading fails. -/
theorem C7_counterexample :
    codeBase "tl0 pl0 tv0 pv0.jpeg" ≠ specBase "tl0 pl0 tv0 pv0.jpeg" ".jpeg" ∧
    filenameToAngles "tl1 pl2 tv3 pv4 x5.exr" " " = .ok (1000, 2000, 3000, 4000) ∧
    specFilenameToAngles "tl1 pl2 tv3 pv4 x5.exr" ".exr" " " =
      .error (.valueError "expected exactly four angle fields") :=
  ⟨by decide, by decide, by decide⟩

/-- C7 (amended): for every 4-character extension filter, the code's parsing
agrees exactly with the spec's description amended to "parse the first four
tag-stripped fields": strip directories and the (4-character) extension,
split on the separator, drop each field's 2-character tag, parse and
quantize. -/
theorem C7_amended (filename ext sep : String) (h4 : ext.length = 4) :
    filenameToAngles filename sep = specFilenameToAnglesFirst4 filename ext sep := by
  unfold filenameToAngles specFilenameToAnglesFirst4 codeBase specBase
  rw [h4]

/-- Witness for `C7_amended` at a concrete input. -/
theorem C7_amended_witness :
    filenameToAngles "d/tl1 pl2.5 tv3 pv4.exr" " " =
      specFilenameToAnglesFirst4 "d/tl1 pl2.5 tv3 pv4.exr" ".exr" " " :=
  C7_amended "d/tl1 pl2.5 tv3 pv4.exr" ".exr" " " (by decide)

end BTF
namespace BTF

/-- C8 (confirmed): for every angle tuple in `angles_set` of a constructed
reader, lookup succeeds — the packed reader returns an image whose shape is
`img_shape` (given the packed format's co-indexing, `N` angles for `N`
images), and the filename reader reaches the decode step and returns the
decoder's output on the stored entry's bytes (so a non-empty array whenever
the external decoder yields one). -/
theorem C8_lookup_ok :
    (∀ (b : Btfnpz), b.anglesRows.length = b.image_list.count →
      ∀ t ∈ b.angles_set, ∃ img,
        b.angles_to_image t.1 t.2.1 t.2.2.1 t.2.2.2 = .ok img ∧
        img.shape = b.img_shape) ∧
    (∀ (entries : List (String × List ℕ)) (path ext sep : String)
      (out : List String) (b : Btfzip),
      Btfzip.init entries path ext sep = (out, .ok b) → ext ≠ "" →
      ∀ key ∈ b.angles_set, ∃ fp, assoc key b.dict = some fp ∧ fp ≠ "" ∧
        ∀ imdec, b.anglesToImageCv2 imdec (milli key.1) (milli key.2.1)
          (milli key.2.2.1) (milli key.2.2.2) = .ok (imdec (b.content fp))) := by
  constructor
  · intro b hlen t ht
    have hmem : t ∈ b.anglesRows := by
      unfold Btfnpz.angles_set at ht
      exact List.mem_dedup.mp ht
    obtain ⟨i, hi⟩ := findClose_isSome_of_mem hmem
    have hilt : i < b.anglesRows.length := findClose_lt_length hi
    rw [hlen] at hilt
    refine ⟨b.image_list.sliceFirst i, ?_, rfl⟩
    have hi2 : findClose (t.1, t.2.1, t.2.2.1, t.2.2.2) b.anglesRows = some i := hi
    unfold Btfnpz.angles_to_image
    rw [hi2]
    dsimp only
    rw [if_pos hilt]
  · intro entries path ext sep out b hinit hext key hkey
    obtain ⟨hpath, hentries, hbd⟩ := Btfzip.init_ok hinit
    have hkey2 : key ∈ b.dict.map Prod.fst := by
      unfold Btfzip.angles_set at hkey
      exact List.mem_dedup.mp hkey
    obtain ⟨fp, hfp⟩ := exists_assoc_of_mem hkey2
    have hpair : (key, fp) ∈ b.dict := assoc_mem hfp
    obtain ⟨hmem, hok⟩ := buildDict_mem hbd hpair
    have hend : pyEndsWith fp ext = true := mem_filteredNames hmem
    have hne : fp ≠ "" := pyEndsWith_ne_empty hend hext
    refine ⟨fp, hfp, hne, ?_⟩
    intro imdec
    unfold Btfzip.anglesToImageCv2
    dsimp only
    rw [quantKey4_milli key, hfp]
    dsimp only
    rw [if_neg hne]

/-- Witness for `C8_lookup_ok` at concrete readers. -/
theorem C8_lookup_ok_witness :
    (∃ img, npzW.angles_to_image 1 0 0 0 = .ok img ∧ img.shape = npzW.img_shape) ∧
    (∃ fp, assoc (10250, 0, 0, 0) zipCex.dict = some fp ∧ fp ≠ "" ∧
      ∀ imdec, zipCex.anglesToImageCv2 imdec (milli 10250) (milli 0) (milli 0)
        (milli 0) = .ok (imdec (zipCex.content fp))) :=
  ⟨C8_lookup_ok.1 npzW (by decide) (1, 0, 0, 0) (by decide),
   C8_lookup_ok.2 zipCex.entries "a.zip" ".exr" " " [] zipCex (by decide)
     (by decide) (10250, 0, 0, 0) (by decide)⟩

/-- C9 (confirmed): construction clears the `writeable` flag of both loaded
arrays (both packed-reader variants do the same), views of the image stack
returned by indexing inherit the cleared flag, and the only operation —
lookup — leaves the reader's state (hence `angles_set` and `img_shape`)
unchanged, in either variant. -/
theorem C9_immutable :
    (∀ (path : String) (images angles : Ndarray),
      (Btfnpz.init path images angles).image_list.writeable = false ∧
      (Btfnpz.init path images angles).angles_list.writeable = false ∧
      ∀ i, ((Btfnpz.init path images angles).image_list.sliceFirst i).writeable = false) ∧
    (∀ (b : Btfnpz) (tl pl tv pv : ℚ),
      (b.anglesToImageS tl pl tv pv).1 = b ∧
      (b.anglesToImage2S tl pl tv pv).1 = b ∧
      (b.anglesToImageS tl pl tv pv).1.angles_set = b.angles_set ∧
      (b.anglesToImageS tl pl tv pv).1.img_shape = b.img_shape) :=
  ⟨fun _ _ _ => ⟨rfl, rfl, fun _ => rfl⟩,
   fun _ _ _ _ _ => ⟨rfl, rfl, rfl, rfl⟩⟩

/-- C10 (confirmed): with a non-empty extension filter, every value of the
quantized-angle-to-entry mapping is a non-empty string, so the falsiness
test `if not filepath` in the cv2 lookup takes the not-found branch exactly
when the quantized key is not a member of `angles_set`. -/
theorem C10_notfound_iff (entries : List (String × List ℕ)) (path ext sep : String)
    (out : List String) (b : Btfzip) (imdec : List ℕ → Option Ndarray)
    (tl pl tv pv : ℚ)
    (hinit : Btfzip.init entries path ext sep = (out, .ok b)) (hext : ext ≠ "") :
    (∀ kv ∈ b.dict, kv.2 ≠ "") ∧
    ((∃ msg, b.anglesToImageCv2 imdec tl pl tv pv = .error (.valueError msg)) ↔
      quantKey4 tl pl tv pv ∉ b.angles_set) := by
  obtain ⟨hpath, hentries, hbd⟩ := Btfzip.init_ok hinit
  have hvalne : ∀ kv ∈ b.dict, kv.2 ≠ "" := by
    intro kv hkv
    obtain ⟨hmem, _⟩ := buildDict_mem hbd (show (kv.1, kv.2) ∈ b.dict from hkv)
    exact pyEndsWith_ne_empty (mem_filteredNames hmem) hext
  refine ⟨hvalne, ?_, ?_⟩
  · rintro ⟨msg, hmsg⟩ hkeymem
    have hkey2 : quantKey4 tl pl tv pv ∈ b.dict.map Prod.fst := by
      unfold Btfzip.angles_set at hkeymem
      exact List.mem_dedup.mp hkeymem
    obtain ⟨fp, hfp⟩ := exists_assoc_of_mem hkey2
    have hne : fp ≠ "" := hvalne _ (assoc_mem hfp)
    unfold Btfzip.anglesToImageCv2 at hmsg
    dsimp only at hmsg
    rw [hfp] at hmsg
    dsimp only at hmsg
    rw [if_neg hne] at hmsg
    exact absurd hmsg (by simp)
  · intro hnot
    have hassoc : assoc (quantKey4 tl pl tv pv) b.dict = none := by
      rw [assoc_eq_none_iff]
      intro hmem
      apply hnot
      unfold Btfzip.angles_set
      exact List.mem_dedup.mpr hmem
    refine ⟨zipNotFoundMsg (quantKey4 tl pl tv pv) b.zip_filepath, ?_⟩
    unfold Btfzip.anglesToImageCv2
    dsimp only
    rw [hassoc]

/-- Witness for `C10_notfound_iff` at a concrete reader. -/
theorem C10_notfound_witness :
    (∀ kv ∈ zipCex.dict, kv.2 ≠ "") ∧
    ((∃ msg, zipCex.anglesToImageCv2 imdecCex 999 999 999 999 =
        .error (.valueError msg)) ↔
      quantKey4 999 999 999 999 ∉ zipCex.angles_set) :=
  C10_notfound_iff zipCex.entries "a.zip" ".exr" " " [] zipCex imdecCex
    999 999 999 999 (by decide) (by decide)

end BTF
